import Mathlib

/-!
Verification of the shared ETL pipeline: a shallow embedding of
`src/shared/data_generators.py` (the Generator) and
`src/shared/etl_operations.py` (Transformer, Aggregator, Loader).

Modelling conventions:
* Python floats are modelled as rationals (`Rat`); `round(x, 2)` / pandas
  `.round(2)` is `round2`.
* The Python `random` module is modelled by an oracle `g : Nat → Nat`
  supplying the raw draws; draw `k` of a run reads `g k`, indexed by the
  call positions of the source's column-major sampling.  `random.randint`
  raises `ValueError` on an empty range, which the embedding surfaces as
  `Except.error GenError.emptyRange`.
* A pandas DataFrame is a `List` of records; a nullable column (one the
  source inspects with `dropna`) is an `Option` field.
-/

namespace EtlModel

/-- Rounding to two decimal places: models Python `round(x, 2)` and pandas
`Series.round(2)` (both the source and the specification apply the very same
rounding operation, so the half-even tie-breaking detail of binary floats is
immaterial to the properties proved here). -/
def round2 (x : Rat) : Rat := ((round (x * 100) : Int) : Rat) / 100

/-- Little-endian decimal digits of a natural number, written with explicit
fuel so that it is structurally recursive and reduces inside the kernel. -/
def decDigitsGo (fuel n : Nat) : List Nat :=
  match fuel, n with
  | 0, _ => []
  | _ + 1, 0 => []
  | f + 1, m + 1 => ((m + 1) % 10) :: decDigitsGo f ((m + 1) / 10)

/-- Little-endian decimal digits (`List Nat`) of `n`; `decDigits 0 = []`. -/
def decDigits (n : Nat) : List Nat := decDigitsGo n n

/-- The decimal rendering of `n` as characters, as Python `str`/`format`
produce it (most significant digit first, `"0"` for zero). -/
def decChars (n : Nat) : List Char :=
  if n = 0 then ['0'] else ((decDigits n).map Nat.digitChar).reverse

/-- Zero padding to width `w`: models a Python format such as `{i:08d}`. -/
def padChars (w : Nat) (l : List Char) : List Char :=
  List.replicate (w - l.length) '0' ++ l

/-- Reads a decimal character string back into a number (a specification
device used to show the rendered identifiers are pairwise distinct). -/
def parseDec (l : List Char) : Nat :=
  l.foldl (fun a c => a * 10 + (c.toNat - 48)) 0

/-- `f"TXN{i:08d}"` of `src/shared/data_generators.py` line 36. -/
def txnId (i : Nat) : String :=
  String.mk (['T', 'X', 'N'] ++ padChars 8 (decChars i))

/-- `f"CUST{r:06d}"` of `src/shared/data_generators.py` line 37. -/
def custId (r : Int) : String :=
  String.mk (['C', 'U', 'S', 'T'] ++ padChars 6 (decChars r.toNat))

/-- `f"Product_{p}"` of `src/shared/data_generators.py` line 38. -/
def productName (p : Int) : String :=
  String.mk (['P', 'r', 'o', 'd', 'u', 'c', 't', '_'] ++ decChars p.toNat)

/-- `f"customer{r}@example.com"` of `src/shared/data_generators.py` line 56. -/
def emailStr (r : Int) : String :=
  String.mk (['c', 'u', 's', 't', 'o', 'm', 'e', 'r'] ++ decChars r.toNat ++
    ['@', 'e', 'x', 'a', 'm', 'p', 'l', 'e', '.', 'c', 'o', 'm'])

theorem decDigitsGo_ofDigits : ∀ fuel n, n ≤ fuel →
    Nat.ofDigits 10 (decDigitsGo fuel n) = n := by
  intro fuel
  induction fuel with
  | zero =>
    intro n hn
    interval_cases n
    simp [decDigitsGo, Nat.ofDigits]
  | succ f ih =>
    intro n hn
    match n with
    | 0 => simp [decDigitsGo, Nat.ofDigits]
    | m + 1 =>
      have hdiv : (m + 1) / 10 ≤ f := by
        have h1 : (m + 1) / 10 < m + 1 := Nat.div_lt_self (Nat.succ_pos m) (by omega)
        omega
      simp only [decDigitsGo, Nat.ofDigits_cons, ih _ hdiv]
      omega

theorem decDigitsGo_lt_ten : ∀ fuel n d, d ∈ decDigitsGo fuel n → d < 10 := by
  intro fuel
  induction fuel with
  | zero => intro n d hd; simp [decDigitsGo] at hd
  | succ f ih =>
    intro n d hd
    match n with
    | 0 => simp [decDigitsGo] at hd
    | m + 1 =>
      simp only [decDigitsGo, List.mem_cons] at hd
      rcases hd with h | h
      · omega
      · exact ih _ _ h

theorem digitChar_toNat (d : Nat) (h : d < 10) : (Nat.digitChar d).toNat = 48 + d := by
  interval_cases d <;> rfl

theorem parseDec_reverse_map (ds : List Nat) (h : ∀ d ∈ ds, d < 10) :
    parseDec ((ds.map Nat.digitChar).reverse) = Nat.ofDigits 10 ds := by
  induction ds with
  | nil => rfl
  | cons d ds ih =>
    have hd : d < 10 := h d (List.mem_cons_self d ds)
    have hds : ∀ x ∈ ds, x < 10 := fun x hx => h x (List.mem_cons_of_mem d hx)
    simp only [List.map_cons, List.reverse_cons]
    simp only [parseDec, List.foldl_append, List.foldl_cons, List.foldl_nil] at ih ⊢
    rw [ih hds, digitChar_toNat d hd, Nat.ofDigits_cons]
    omega

theorem parseDec_decChars (n : Nat) : parseDec (decChars n) = n := by
  by_cases h : n = 0
  · subst h; rfl
  · unfold decChars decDigits
    rw [if_neg h, parseDec_reverse_map _ (fun d hd => decDigitsGo_lt_ten n n d hd),
      decDigitsGo_ofDigits n n le_rfl]

theorem parseDec_padChars (w : Nat) (l : List Char) :
    parseDec (padChars w l) = parseDec l := by
  unfold padChars parseDec
  rw [List.foldl_append]
  have : ∀ k, List.foldl (fun a c => a * 10 + (c.toNat - 48)) 0
      (List.replicate k '0') = 0 := by
    intro k
    induction k with
    | zero => rfl
    | succ k ih => simpa [List.replicate_succ] using ih
  rw [this]

theorem txnId_injective : Function.Injective txnId := by
  intro i j h
  have hdata : ['T', 'X', 'N'] ++ padChars 8 (decChars i) =
      ['T', 'X', 'N'] ++ padChars 8 (decChars j) := congrArg String.data h
  have hpad : padChars 8 (decChars i) = padChars 8 (decChars j) := by
    simpa using hdata
  have := congrArg parseDec hpad
  rwa [parseDec_padChars, parseDec_padChars, parseDec_decChars, parseDec_decChars] at this

/-- A transaction record: one row of the generated / extracted DataFrame
(`src/shared/data_generators.py` lines 35-59).  The three columns that
`transform_data` inspects with `dropna` (`transaction_id`, `customer_id`,
`total_amount`) are nullable and hence `Option` fields.  `transaction_date`
is the day offset from 2023-01-01 encoded by the generated date string
(always parseable; `pd.to_datetime` is modelled as reading this field). -/
structure Row where
  transaction_id : Option String
  customer_id : Option String
  product_name : String
  category : String
  quantity : Int
  unit_price : Rat
  total_amount : Option Rat
  discount_percent : Int
  tax_rate : Rat
  payment_method : String
  status : String
  transaction_date : Int
  shipping_country : String
  customer_email : String
deriving DecidableEq, Inhabited

/-- The one error the generator's body can raise: `random.randint(a, b)`
raises `ValueError` when the range `[a, b]` is empty. -/
inductive GenError where
  | emptyRange
deriving DecidableEq

/-- The value a successful `random.randint(a, b)` call draws: the oracle
value `v` reduced into the inclusive range `[a, b]`. -/
def randintVal (a b : Int) (v : Nat) : Int := a + (v : Int) % (b - a + 1)

/-- `random.randint(a, b)`: a draw from the inclusive range `[a, b]`,
`ValueError` when the range is empty (`b < a`). -/
def randint (a b : Int) (v : Nat) : Except GenError Int :=
  if b < a then .error .emptyRange else .ok (randintVal a b v)

/-- `random.choice(l)` for the fixed non-empty enumerations of the source:
the oracle value selects the element. -/
def choiceD {α : Type} (l : List α) (d : α) (v : Nat) : α :=
  l.getD (v % l.length) d

/-- `random.uniform(a, b)`: some value of `[a, b]` selected by the oracle
(no property proved here depends on the distribution, only on the draw being
a single number). -/
def uniform (a b : Rat) (v : Nat) : Rat :=
  a + (b - a) * ((v % 1000 : Nat) : Rat) / 1000

/-- `categories` of `src/shared/data_generators.py` line 29. -/
def categories : List String :=
  ["Electronics", "Clothing", "Books", "Home & Garden", "Sports", "Toys"]

/-- `statuses` of `src/shared/data_generators.py` line 30. -/
def statuses : List String := ["completed", "pending", "cancelled", "refunded"]

/-- `payment_methods` of `src/shared/data_generators.py` line 31. -/
def payment_methods : List String := ["credit_card", "debit_card", "paypal", "crypto"]

/-- The shipping-country enumeration of `src/shared/data_generators.py` line 52. -/
def countries : List String := ["USA", "Canada", "UK", "Germany", "France", "Australia"]

/-- Row `i` of `generate_sample_data(num_rows)`: the source samples
column-major, so the draw for column `c`, row `i` is oracle position
`c * n + i` (`n = len(range(num_rows))`).  `total_amount` is the vectorised
computation of lines 64-66 applied to this row.  Python `//` on the
non-negative `num_rows` reached here agrees with `Int` `/` (Euclidean). -/
def genRow (num_rows : Int) (g : Nat → Nat) (n i : Nat) : Except GenError Row := do
  let cust ← randint 1 (num_rows / 10) (g (0 * n + i))
  let prod ← randint 1 1000 (g (1 * n + i))
  let cat := choiceD categories "" (g (2 * n + i))
  let qty ← randint 1 10 (g (3 * n + i))
  let price := round2 (uniform 5 500 (g (4 * n + i)))
  let disc : Int := choiceD [0, 5, 10, 15, 20] 0 (g (5 * n + i))
  let pay := choiceD payment_methods "" (g (6 * n + i))
  let stat := choiceD statuses "" (g (7 * n + i))
  let dateOff ← randint 0 700 (g (8 * n + i))
  let ctry := choiceD countries "" (g (9 * n + i))
  let mailN ← randint 1 (num_rows / 10) (g (10 * n + i))
  pure
    { transaction_id := some (txnId i)
      customer_id := some (custId cust)
      product_name := productName prod
      category := cat
      quantity := qty
      unit_price := price
      total_amount :=
        some (round2 ((qty : Rat) * price * (1 - (disc : Rat) / 100) * (1 + 8 / 100)))
      discount_percent := disc
      tax_rate := 8 / 100
      payment_method := pay
      status := stat
      transaction_date := dateOff
      shipping_country := ctry
      customer_email := emailStr mailN }

/-- Monadic map over a list, failing at the first error, exactly as a Python
list comprehension evaluates. -/
def mapME {α β ε : Type} (f : α → Except ε β) : List α → Except ε (List β)
  | [] => .ok []
  | a :: l => do
    let b ← f a
    let bs ← mapME f l
    pure (b :: bs)

/-- `generate_sample_data(num_rows)` of `src/shared/data_generators.py`:
the returned DataFrame (file output is outside this embedding).  `range(n)`
of a non-positive `n` is empty, hence `Int.toNat`. -/
def generate_sample_data (num_rows : Int) (g : Nat → Nat) : Except GenError (List Row) :=
  let n := num_rows.toNat
  mapME (genRow num_rows g n) (List.range n)

/-- The all-zeros random oracle, used for concrete runs. -/
def gZero : Nat → Nat := fun _ => 0

theorem ok_bind {α β ε : Type} (a : α) (f : α → Except ε β) :
    (Except.ok a >>= f : Except ε β) = f a := rfl

theorem error_bind {α β ε : Type} (e : ε) (f : α → Except ε β) :
    (Except.error e >>= f : Except ε β) = .error e := rfl

theorem bind_ok_iff {α β ε : Type} (x : Except ε α) (f : α → Except ε β) (b : β) :
    (x >>= f) = .ok b ↔ ∃ a, x = .ok a ∧ f a = .ok b := by
  cases x with
  | ok a => simp [ok_bind]
  | error e => simp [error_bind]

theorem mapME_ok_of_fn {α β ε : Type} (f : α → Except ε β) (f' : α → β)
    (l : List α) (h : ∀ a ∈ l, f a = .ok (f' a)) : mapME f l = .ok (l.map f') := by
  induction l with
  | nil => rfl
  | cons a l ih =>
    have ha := h a (List.mem_cons_self a l)
    have hl := ih fun x hx => h x (List.mem_cons_of_mem a hx)
    simp [mapME, ha, hl, ok_bind]

theorem mapME_ok_mem {α β ε : Type} (f : α → Except ε β) :
    ∀ (l : List α) (bs : List β), mapME f l = .ok bs → ∀ b ∈ bs, ∃ a ∈ l, f a = .ok b := by
  intro l
  induction l with
  | nil =>
    intro bs h b hb
    simp only [mapME] at h
    cases h
    simp at hb
  | cons a l ih =>
    intro bs h b hb
    simp only [mapME, bind_ok_iff] at h
    obtain ⟨b0, hb0, bs', hbs', hpure⟩ := h
    have hcons : bs = b0 :: bs' := by
      have : (pure (b0 :: bs') : Except ε (List β)) = .ok (b0 :: bs') := rfl
      rw [this] at hpure
      cases hpure
      rfl
    subst hcons
    rcases List.mem_cons.mp hb with hb | hb
    · exact ⟨a, List.mem_cons_self a l, hb ▸ hb0⟩
    · obtain ⟨a', ha', hfa'⟩ := ih bs' hbs' b hb
      exact ⟨a', List.mem_cons_of_mem a ha', hfa'⟩

/-- The row `genRow` produces when every draw succeeds: the same record with
the `randint` calls replaced by their drawn values. -/
def genRowVal (num_rows : Int) (g : Nat → Nat) (n i : Nat) : Row :=
  let cust := randintVal 1 (num_rows / 10) (g (0 * n + i))
  let prod := randintVal 1 1000 (g (1 * n + i))
  let cat := choiceD categories "" (g (2 * n + i))
  let qty := randintVal 1 10 (g (3 * n + i))
  let price := round2 (uniform 5 500 (g (4 * n + i)))
  let disc : Int := choiceD [0, 5, 10, 15, 20] 0 (g (5 * n + i))
  let pay := choiceD payment_methods "" (g (6 * n + i))
  let stat := choiceD statuses "" (g (7 * n + i))
  let dateOff := randintVal 0 700 (g (8 * n + i))
  let ctry := choiceD countries "" (g (9 * n + i))
  let mailN := randintVal 1 (num_rows / 10) (g (10 * n + i))
  { transaction_id := some (txnId i)
    customer_id := some (custId cust)
    product_name := productName prod
    category := cat
    quantity := qty
    unit_price := price
    total_amount :=
      some (round2 ((qty : Rat) * price * (1 - (disc : Rat) / 100) * (1 + 8 / 100)))
    discount_percent := disc
    tax_rate := 8 / 100
    payment_method := pay
    status := stat
    transaction_date := dateOff
    shipping_country := ctry
    customer_email := emailStr mailN }

theorem pure_ok_iff {α ε : Type} (a b : α) :
    (pure a : Except ε α) = .ok b ↔ a = b := by
  constructor
  · intro h
    cases h
    rfl
  · intro h
    cases h
    rfl

theorem genRow_eq_ok (num_rows : Int) (g : Nat → Nat) (n i : Nat)
    (h : 1 ≤ num_rows / 10) :
    genRow num_rows g n i = .ok (genRowVal num_rows g n i) := by
  have h1 : ¬ ((num_rows / 10 : Int) < 1) := by omega
  have h2 : ¬ ((1000 : Int) < 1) := by norm_num
  have h3 : ¬ ((10 : Int) < 1) := by norm_num
  have h4 : ¬ ((700 : Int) < 0) := by norm_num
  simp only [genRow, genRowVal, randint, if_neg h1, if_neg h2, if_neg h3, if_neg h4,
    ok_bind]
  rfl

/-- C10: with `1 ≤ n ≤ 9` the customer-id pool `n // 10` is zero, so the very
first `random.randint(1, n // 10)` draw raises `ValueError` and the Generator
produces no dataset. -/
theorem generator_small_n_raises (num_rows : Int) (g : Nat → Nat)
    (h1 : 1 ≤ num_rows) (h9 : num_rows ≤ 9) :
    generate_sample_data num_rows g = .error .emptyRange := by
  have hn : num_rows.toNat = (num_rows.toNat - 1) + 1 := by omega
  have hdiv : (num_rows / 10 : Int) < 1 := by omega
  unfold generate_sample_data
  show mapME (genRow num_rows g num_rows.toNat) (List.range num_rows.toNat) = _
  rw [hn, List.range_succ_eq_map]
  simp [mapME, genRow, randint, if_pos hdiv, error_bind]

/-- C10 witness: at `n = 5` the Generator raises instead of producing rows. -/
theorem generator_small_n_raises_witness :
    generate_sample_data 5 gZero = .error .emptyRange :=
  generator_small_n_raises 5 gZero (by norm_num) (by norm_num)

/-- C1 counterexample: `n = 3` is a positive row count for which the
Generator raises (empty customer-id pool) instead of returning 3 rows. -/
theorem generator_exact_rows_counterexample :
    generate_sample_data 3 gZero = .error .emptyRange := rfl

/-- C1 (amended): for every `n ≥ 10` (so the customer-id pool `n // 10` is
non-empty) the Generator returns exactly `n` rows whose `transaction_id`
values are the zero-padded sequential indices, hence pairwise distinct. -/
theorem generator_exact_rows_amended (num_rows : Int) (g : Nat → Nat)
    (h : 10 ≤ num_rows) :
    ∃ rows, generate_sample_data num_rows g = .ok rows ∧
      rows.length = num_rows.toNat ∧
      rows.map Row.transaction_id =
        (List.range num_rows.toNat).map (fun i => some (txnId i)) ∧
      (rows.map Row.transaction_id).Nodup := by
  have hdiv : 1 ≤ (num_rows / 10 : Int) := by omega
  have hmap : (List.range num_rows.toNat).map (fun i => some (txnId i)) =
      ((List.range num_rows.toNat).map (genRowVal num_rows g num_rows.toNat)).map
        Row.transaction_id := by
    rw [List.map_map]
    rfl
  refine ⟨(List.range num_rows.toNat).map (genRowVal num_rows g num_rows.toNat),
    ?_, ?_, ?_, ?_⟩
  · exact mapME_ok_of_fn _ _ _
      (fun i _ => genRow_eq_ok num_rows g num_rows.toNat i hdiv)
  · simp
  · rw [← hmap]
  · rw [← hmap]
    refine List.Nodup.map ?_ (List.nodup_range num_rows.toNat)
    intro a b hab
    exact txnId_injective (Option.some.injEq _ _ ▸ hab)

/-- C1 witness: at `n = 10` the hypotheses of the amended claim hold and the
Generator returns ten rows with distinct sequential identifiers. -/
theorem generator_exact_rows_amended_witness :
    ∃ rows, generate_sample_data 10 gZero = .ok rows ∧
      rows.length = (10 : Int).toNat ∧
      rows.map Row.transaction_id =
        (List.range (10 : Int).toNat).map (fun i => some (txnId i)) ∧
      (rows.map Row.transaction_id).Nodup :=
  generator_exact_rows_amended 10 gZero (by norm_num)

/-- C2: every row of every successfully generated dataset satisfies
`total_amount = round2 (quantity * unit_price * (1 - discount_percent / 100)
* (1 + tax_rate))`, the vectorised formula of
`src/shared/data_generators.py` lines 64-66. -/
theorem generated_total_amount_formula (num_rows : Int) (g : Nat → Nat)
    (rows : List Row) (hok : generate_sample_data num_rows g = .ok rows)
    (r : Row) (hr : r ∈ rows) :
    r.total_amount = some (round2 ((r.quantity : Rat) * r.unit_price *
      (1 - (r.discount_percent : Rat) / 100) * (1 + r.tax_rate))) := by
  simp only [generate_sample_data] at hok
  obtain ⟨i, hi, hgen⟩ := mapME_ok_mem _ _ _ hok r hr
  simp only [genRow, bind_ok_iff, pure_ok_iff] at hgen
  obtain ⟨cust, hc, prod, hp, qty, hq, dOff, hd, mN, hm, hpure⟩ := hgen
  cases hpure
  rfl

/-- Gregorian civil date `(year, month, day)` of a Unix day number, the
standard era computation; models the calendar arithmetic the pandas
timestamp accessors (`dt.year`, `dt.month`) perform — library code, not code
of this repository. -/
def civilFromDays (z0 : Int) : Int × Int × Int :=
  let z := z0 + 719468
  let era := z / 146097
  let doe := z - era * 146097
  let yoe := (doe - doe / 1460 + doe / 36524 - doe / 146096) / 365
  let y := yoe + era * 400
  let doy := doe - (365 * yoe + yoe / 4 - yoe / 100)
  let mp := (5 * doy + 2) / 153
  let d := doy - (153 * mp + 2) / 5 + 1
  let m := if mp < 10 then mp + 3 else mp - 9
  (if m ≤ 2 then y + 1 else y, m, d)

/-- Days from 1970-01-01 to 2023-01-01, the start of the generator's date
window; `transaction_date` is stored as the offset from that start. -/
def epochOffset : Int := 19358

/-- `df["transaction_date"].dt.year` (pandas accessor model). -/
def dt_year (d : Int) : Int := (civilFromDays (d + epochOffset)).1

/-- `df["transaction_date"].dt.month` (pandas accessor model). -/
def dt_month (d : Int) : Int := (civilFromDays (d + epochOffset)).2.1

/-- `df["transaction_date"].dt.dayofweek`, Monday = 0 (1970-01-01 was a
Thursday, index 3). -/
def dt_dayofweek (d : Int) : Int := (d + epochOffset + 3) % 7

/-- The weekday names `dt.day_name()` yields, indexed Monday = 0. -/
def dayNames : List String :=
  ["Monday", "Tuesday", "Wednesday", "Thursday", "Friday", "Saturday", "Sunday"]

/-- `df["transaction_date"].dt.day_name()` (pandas accessor model). -/
def dt_day_name (d : Int) : String := dayNames.getD (dt_dayofweek d).toNat ""

/-- An enriched transaction record: a `Row` plus the derived columns
`transform_data` appends (`src/shared/etl_operations.py` lines 78-93). -/
structure EnrichedRow extends Row where
  year : Int
  month : Int
  day_of_week : String
  is_weekend : Bool
  customer_segment : Option String
  estimated_profit : Option Rat
deriving DecidableEq, Inhabited

/-- `pd.cut(total_amount, bins = [0, 50, 200, inf], labels = [low_value,
medium_value, high_value])`: right-closed buckets `(0, 50]`, `(50, 200]`,
`(200, ∞)`; a value outside every bucket (here `total_amount ≤ 0`) becomes
null. -/
def pd_cut_segment (x : Rat) : Option String :=
  if 0 < x ∧ x ≤ 50 then some "low_value"
  else if 50 < x ∧ x ≤ 200 then some "medium_value"
  else if 200 < x then some "high_value"
  else none

/-- The enrichment of one surviving row: the derived columns of
`src/shared/etl_operations.py` lines 76-93, each a function of the base
columns (re-running them overwrites the derived columns with the same
values, as pandas column assignment does). -/
def enrich (r : Row) : EnrichedRow :=
  { toRow := r
    year := dt_year r.transaction_date
    month := dt_month r.transaction_date
    day_of_week := dt_day_name r.transaction_date
    is_weekend := decide (5 ≤ dt_dayofweek r.transaction_date)
    customer_segment :=
      match r.total_amount with
      | some a => pd_cut_segment a
      | none => none
    estimated_profit := r.total_amount.map (fun a => round2 (a * (3 / 10))) }

/-- The predicate of `df.dropna(subset=["transaction_id", "customer_id",
"total_amount"])`: the row survives iff none of the three is null. -/
def validRow (r : Row) : Bool :=
  r.transaction_id.isSome && r.customer_id.isSome && r.total_amount.isSome

/-- The predicate of `df[df["total_amount"] > 0]` (a null compares false). -/
def posAmount (r : Row) : Bool :=
  match r.total_amount with
  | some a => decide (0 < a)
  | none => false

/-- The predicate of `df[df["quantity"] > 0]`. -/
def posQuantity (r : Row) : Bool := decide (0 < r.quantity)

/-- `df.drop_duplicates(subset=["transaction_id"])` keeping first
occurrences; `seen` is the set of key values already kept (pandas treats
nulls as equal here, as does `Option` equality). -/
def dropDuplicatesGo (seen : List (Option String)) : List Row → List Row
  | [] => []
  | r :: rest =>
    if r.transaction_id ∈ seen then dropDuplicatesGo seen rest
    else r :: dropDuplicatesGo (r.transaction_id :: seen) rest

/-- `df.drop_duplicates(subset=["transaction_id"])`. -/
def drop_duplicates (rs : List Row) : List Row := dropDuplicatesGo [] rs

/-- `transform_data(df)` of `src/shared/etl_operations.py` lines 44-96:
deduplicate by `transaction_id`, drop rows with nulls in the three key
columns, drop non-positive `total_amount` and `quantity`, parse
`transaction_date` (always parseable in this embedding: the field already
holds the day offset the generated string encodes), then append the derived
columns. -/
def transform_data (rs : List Row) : List EnrichedRow :=
  let d1 := drop_duplicates rs
  let d2 := d1.filter validRow
  let d3 := d2.filter posAmount
  let d4 := d3.filter posQuantity
  d4.map enrich

theorem dropDuplicatesGo_sublist (seen : List (Option String)) :
    ∀ rs : List Row, (dropDuplicatesGo seen rs).Sublist rs := by
  intro rs
  induction rs generalizing seen with
  | nil => simp [dropDuplicatesGo]
  | cons r rest ih =>
    by_cases hmem : r.transaction_id ∈ seen
    · simp only [dropDuplicatesGo, if_pos hmem]
      exact List.Sublist.cons r (ih seen)
    · simp only [dropDuplicatesGo, if_neg hmem]
      exact List.Sublist.cons₂ r (ih (r.transaction_id :: seen))

theorem dropDuplicatesGo_nodup (seen : List (Option String)) :
    ∀ rs : List Row,
      ((dropDuplicatesGo seen rs).map Row.transaction_id).Nodup ∧
      ∀ k ∈ seen, k ∉ (dropDuplicatesGo seen rs).map Row.transaction_id := by
  intro rs
  induction rs generalizing seen with
  | nil => simp [dropDuplicatesGo]
  | cons r rest ih =>
    by_cases hmem : r.transaction_id ∈ seen
    · simpa only [dropDuplicatesGo, if_pos hmem] using ih seen
    · obtain ⟨hnd, hdisj⟩ := ih (r.transaction_id :: seen)
      simp only [dropDuplicatesGo, if_neg hmem, List.map_cons, List.nodup_cons]
      refine ⟨⟨hdisj r.transaction_id (List.mem_cons_self _ _), hnd⟩, ?_⟩
      intro k hk
      simp only [List.mem_cons, not_or]
      constructor
      · intro he
        exact hmem (he ▸ hk)
      · exact hdisj k (List.mem_cons_of_mem _ hk)

theorem drop_duplicates_of_nodup (rs : List Row)
    (h : (rs.map Row.transaction_id).Nodup) : drop_duplicates rs = rs := by
  unfold drop_duplicates
  suffices hgen : ∀ (l : List Row) (seen : List (Option String)),
      (l.map Row.transaction_id).Nodup →
      (∀ r ∈ l, r.transaction_id ∉ seen) → dropDuplicatesGo seen l = l by
    exact hgen rs [] h (by simp)
  intro l
  induction l with
  | nil => intro seen _ _; rfl
  | cons r rest ih =>
    intro seen hnd hout
    have hmem : r.transaction_id ∉ seen := hout r (List.mem_cons_self _ _)
    simp only [List.map_cons, List.nodup_cons] at hnd
    rw [dropDuplicatesGo, if_neg hmem, ih (r.transaction_id :: seen) hnd.2]
    intro x hx
    simp only [List.mem_cons, not_or]
    exact ⟨fun he => hnd.1 (he ▸ List.mem_map_of_mem Row.transaction_id hx),
      hout x (List.mem_cons_of_mem r hx)⟩

theorem transform_data_eq (rs : List Row) :
    transform_data rs =
      ((((drop_duplicates rs).filter validRow).filter posAmount).filter
        posQuantity).map enrich := rfl

theorem transform_data_mem (rs : List Row) (e : EnrichedRow)
    (he : e ∈ transform_data rs) :
    ∃ r, e = enrich r ∧ validRow r = true ∧ posAmount r = true ∧
      posQuantity r = true := by
  rw [transform_data_eq] at he
  rw [List.mem_map] at he
  obtain ⟨r, hr, he⟩ := he
  have h4 := List.mem_filter.mp hr
  have h3 := List.mem_filter.mp h4.1
  have h2 := List.mem_filter.mp h3.1
  exact ⟨r, he.symm, h2.2, h3.2, h4.2⟩

theorem transform_data_tids (rs : List Row) :
    ((transform_data rs).map (fun e => e.transaction_id)).Nodup := by
  rw [transform_data_eq, List.map_map]
  have hcomp : ((fun e : EnrichedRow => e.transaction_id) ∘ enrich) =
      Row.transaction_id := rfl
  rw [hcomp]
  have hsub : ((((drop_duplicates rs).filter validRow).filter posAmount).filter
      posQuantity).Sublist (drop_duplicates rs) :=
    ((List.filter_sublist _).trans (List.filter_sublist _)).trans
      (List.filter_sublist _)
  exact ((dropDuplicatesGo_nodup [] rs).1).sublist (hsub.map Row.transaction_id)

/-- C3: on every input, the Transformer's output has no row with a
non-positive (or null) `total_amount`, none with a non-positive `quantity`,
no two rows sharing a `transaction_id` value, and no more rows than the
input. -/
theorem transform_output_valid (rs : List Row) :
    (∀ e ∈ transform_data rs,
      (∃ a, e.total_amount = some a ∧ 0 < a) ∧ 0 < e.quantity) ∧
    ((transform_data rs).map (fun e => e.transaction_id)).Nodup ∧
    (transform_data rs).length ≤ rs.length := by
  refine ⟨?_, transform_data_tids rs, ?_⟩
  · intro e he
    obtain ⟨r, he', hv, hpa, hq⟩ := transform_data_mem rs e he
    subst he'
    constructor
    · unfold posAmount at hpa
      cases hra : r.total_amount with
      | some a =>
        rw [hra] at hpa
        exact ⟨a, hra, of_decide_eq_true hpa⟩
      | none => rw [hra] at hpa; cases hpa
    · exact of_decide_eq_true hq
  · rw [transform_data_eq, List.length_map]
    calc ((((drop_duplicates rs).filter validRow).filter posAmount).filter
            posQuantity).length
        ≤ (drop_duplicates rs).length :=
          (((List.filter_sublist _).trans (List.filter_sublist _)).trans
            (List.filter_sublist _)).length_le
      _ ≤ rs.length := (dropDuplicatesGo_sublist [] rs).length_le

/-- C4: the Transformer buckets every surviving row's `total_amount` with
closed-right boundaries: amounts in `(0, 50]` give `low_value`, in
`(50, 200]` give `medium_value`, above `200` give `high_value` (so exactly
50 is low, exactly 200 is medium). -/
theorem transform_segment_buckets (rs : List Row) (e : EnrichedRow)
    (he : e ∈ transform_data rs) (a : Rat) (ha : e.total_amount = some a) :
    (a ≤ 50 → e.customer_segment = some "low_value") ∧
    (50 < a → a ≤ 200 → e.customer_segment = some "medium_value") ∧
    (200 < a → e.customer_segment = some "high_value") := by
  obtain ⟨r, he', hv, hpa, hq⟩ := transform_data_mem rs e he
  subst he'
  have hra : r.total_amount = some a := ha
  have hpos : 0 < a := by
    unfold posAmount at hpa
    rw [hra] at hpa
    exact of_decide_eq_true hpa
  have hseg : (enrich r).customer_segment = pd_cut_segment a := by
    simp [enrich, hra]
  rw [hseg]
  unfold pd_cut_segment
  refine ⟨?_, ?_, ?_⟩
  · intro h50
    rw [if_pos ⟨hpos, h50⟩]
  · intro hgt hle
    rw [if_neg fun hc => absurd hc.2 (not_le.mpr hgt), if_pos ⟨hgt, hle⟩]
  · intro hgt
    rw [if_neg fun hc => absurd hc.2 (not_le.mpr (lt_trans (by norm_num) hgt)),
      if_neg fun hc => absurd hc.2 (not_le.mpr hgt), if_pos hgt]

/-- An input that already satisfies the Transformer's cleaning predicates:
pairwise-distinct `transaction_id` values, no nulls in the three key
columns, positive `total_amount` and `quantity`. -/
def cleanInput (rs : List Row) : Prop :=
  (rs.map Row.transaction_id).Nodup ∧
  ∀ r ∈ rs, validRow r = true ∧ posAmount r = true ∧ posQuantity r = true

instance (rs : List Row) : Decidable (cleanInput rs) := by
  unfold cleanInput
  infer_instance

theorem transform_clean (rs : List Row) (h : cleanInput rs) :
    transform_data rs = rs.map enrich := by
  obtain ⟨hnd, hall⟩ := h
  rw [transform_data_eq, drop_duplicates_of_nodup rs hnd,
    List.filter_eq_self.mpr fun r hr => (hall r hr).1,
    List.filter_eq_self.mpr fun r hr => (hall r hr).2.1,
    List.filter_eq_self.mpr fun r hr => (hall r hr).2.2]

/-- A single-purpose concrete row constructor for witness runs (not source
code: just a closed record). -/
def mkTestRow (tid : String) (c : String) (amount : Rat) (q : Int) : Row :=
  { transaction_id := some tid
    customer_id := some "C1"
    product_name := "P"
    category := c
    quantity := q
    unit_price := amount
    total_amount := some amount
    discount_percent := 0
    tax_rate := 8 / 100
    payment_method := "credit_card"
    status := "completed"
    transaction_date := 0
    shipping_country := "USA"
    customer_email := "e@example.com" }

/-- `50.01` as a normalised rational (written as an explicit
numerator/denominator pair so that it evaluates inside the kernel). -/
def amt5001 : Rat := ⟨5001, 100, by norm_num, by decide⟩

/-- `200.01` as a normalised rational. -/
def amt20001 : Rat := ⟨20001, 100, by norm_num, by decide⟩

/-- Four rows whose amounts are the boundary values 50, 50.01, 200 and
200.01. -/
def segRows : List Row :=
  [mkTestRow "T1" "Books" 50 1, mkTestRow "T2" "Books" amt5001 1,
    mkTestRow "T3" "Books" 200 1, mkTestRow "T4" "Books" amt20001 1]

theorem segRows_clean : cleanInput segRows := by decide

theorem segRows_transform : transform_data segRows = segRows.map enrich :=
  transform_clean segRows segRows_clean

/-- C4 witness: the four boundary rows survive the Transformer unchanged and
get the segments the claim names (50 → low, 50.01 → medium, 200 → medium,
200.01 → high). -/
theorem transform_segment_buckets_witness :
    (enrich (mkTestRow "T1" "Books" 50 1)).customer_segment =
        some "low_value" ∧
    (enrich (mkTestRow "T2" "Books" amt5001 1)).customer_segment =
        some "medium_value" ∧
    (enrich (mkTestRow "T3" "Books" 200 1)).customer_segment =
        some "medium_value" ∧
    (enrich (mkTestRow "T4" "Books" amt20001 1)).customer_segment =
        some "high_value" :=
  ⟨(transform_segment_buckets segRows _
      (by rw [segRows_transform]
          exact List.mem_map_of_mem enrich (List.mem_cons_self _ _))
      50 rfl).1 (by norm_num),
    (transform_segment_buckets segRows _
      (by rw [segRows_transform]
          exact List.mem_map_of_mem enrich
            (List.mem_cons_of_mem _ (List.mem_cons_self _ _)))
      amt5001 rfl).2.1 (by decide) (by decide),
    (transform_segment_buckets segRows _
      (by rw [segRows_transform]
          exact List.mem_map_of_mem enrich
            (List.mem_cons_of_mem _ (List.mem_cons_of_mem _
              (List.mem_cons_self _ _))))
      200 rfl).2.1 (by norm_num) (by norm_num),
    (transform_segment_buckets segRows _
      (by rw [segRows_transform]
          exact List.mem_map_of_mem enrich
            (List.mem_cons_of_mem _ (List.mem_cons_of_mem _
              (List.mem_cons_of_mem _ (List.mem_cons_self _ _)))))
      amt20001 rfl).2.2 (by decide)⟩

/-- Re-running the Transformer on its own output.  pandas recomputes every
derived column from the base columns by assignment, overwriting the previous
values, so the second run equals `transform_data` applied to the base-column
projection of the enriched frame. -/
def transform_data_rerun (es : List EnrichedRow) : List EnrichedRow :=
  transform_data (es.map EnrichedRow.toRow)

theorem transform_output_clean (rs : List Row) :
    cleanInput ((transform_data rs).map EnrichedRow.toRow) := by
  constructor
  · rw [List.map_map]
    exact transform_data_tids rs
  · intro r hr
    rw [List.mem_map] at hr
    obtain ⟨e, he, hre⟩ := hr
    obtain ⟨r', he', hv, hpa, hq⟩ := transform_data_mem rs e he
    subst he'
    cases hre
    exact ⟨hv, hpa, hq⟩

/-- C6: on an input that already satisfies the cleaning predicates, the
Transformer is idempotent: a second run over its output reproduces the same
enriched record set. -/
theorem transform_idempotent (rs : List Row) (h : cleanInput rs) :
    transform_data_rerun (transform_data rs) = transform_data rs := by
  unfold transform_data_rerun
  rw [transform_clean _ (transform_output_clean rs), transform_data_eq,
    List.map_map, List.map_map]
  rfl

/-- Two already-clean rows (distinct ids, no nulls, positive amounts and
quantities). -/
def cleanRows : List Row :=
  [mkTestRow "T1" "Books" 20 1, mkTestRow "T2" "Electronics" 100 2]

/-- C6 witness: the clean two-row input satisfies the hypothesis and the
Transformer is idempotent on it. -/
theorem transform_idempotent_witness :
    transform_data_rerun (transform_data cleanRows) = transform_data cleanRows :=
  transform_idempotent cleanRows (by decide)

/-- C7 counterexample: at the non-positive row count `n = 0` the Generator
raises no error at all: it returns an empty dataset. -/
theorem generator_nonpositive_counterexample :
    generate_sample_data 0 gZero = .ok [] := rfl

/-- C7 (amended): for every `n ≤ 0` the Generator does not fail: Python
`range(n)` is empty, no draw is attempted, and an empty dataset is
returned. -/
theorem generator_nonpositive_amended (num_rows : Int) (g : Nat → Nat)
    (h : num_rows ≤ 0) : generate_sample_data num_rows g = .ok [] := by
  have h0 : num_rows.toNat = 0 := by omega
  unfold generate_sample_data
  show mapME (genRow num_rows g num_rows.toNat) (List.range num_rows.toNat) = _
  rw [h0]
  rfl

/-- C7 witness: at `n = -1` the Generator returns the empty dataset. -/
theorem generator_nonpositive_amended_witness :
    generate_sample_data (-1) gZero = .ok [] :=
  generator_nonpositive_amended (-1) gZero (by norm_num)

/-- The ten rows the Generator yields at `n = 10` under the all-zeros
oracle. -/
def genTen : List Row := (List.range 10).map (genRowVal 10 gZero 10)

theorem genTen_ok : generate_sample_data 10 gZero = .ok genTen :=
  mapME_ok_of_fn _ _ _ fun i _ => genRow_eq_ok 10 gZero 10 i (by decide)

/-- C2 witness: the first generated row of a concrete run satisfies the
`total_amount` formula. -/
theorem generated_total_amount_formula_witness :
    (genRowVal 10 gZero 10 0).total_amount =
      some (round2 (((genRowVal 10 gZero 10 0).quantity : Rat) *
        (genRowVal 10 gZero 10 0).unit_price *
        (1 - ((genRowVal 10 gZero 10 0).discount_percent : Rat) / 100) *
        (1 + (genRowVal 10 gZero 10 0).tax_rate))) :=
  generated_total_amount_formula 10 gZero genTen genTen_ok
    (genRowVal 10 gZero 10 0) (List.mem_map_of_mem _ (by decide))

/-- A category summary record: one output row of `create_summary`
(`src/shared/etl_operations.py` lines 99-126). -/
structure SummaryRow where
  category : String
  total_transactions : Nat
  total_revenue : Rat
  avg_order_value : Rat
  total_quantity : Int
deriving DecidableEq, Inhabited

/-- Lexicographic code-point comparison of character lists (how Python
compares the category strings `groupby` sorts by). -/
def charListLe : List Char → List Char → Bool
  | [], _ => true
  | _ :: _, [] => false
  | a :: as, b :: bs =>
    if a.toNat < b.toNat then true
    else if b.toNat < a.toNat then false
    else charListLe as bs

/-- Code-point order on strings (kernel-computable). -/
def strLe (s t : String) : Bool := charListLe s.data t.data

/-- Insertion of a string into a (sorted) list, for the group-key ordering
`df.groupby` applies. -/
def insertSorted (s : String) : List String → List String
  | [] => [s]
  | t :: ts => if strLe s t then s :: t :: ts else t :: insertSorted s ts

/-- Sorting of the group keys (`groupby` sorts its keys; no property proved
here depends on the order, only on the multiset of keys). -/
def sortStr : List String → List String
  | [] => []
  | s :: l => insertSorted s (sortStr l)

theorem insertSorted_perm (s : String) (l : List String) :
    List.Perm (insertSorted s l) (s :: l) := by
  induction l with
  | nil => exact List.Perm.refl _
  | cons t ts ih =>
    cases h : strLe s t
    · rw [insertSorted, if_neg (by simp [h])]
      exact (List.Perm.cons t ih).trans (List.Perm.swap s t ts)
    · rw [insertSorted, if_pos (by simp [h])]

theorem sortStr_perm : ∀ l, List.Perm (sortStr l) l := by
  intro l
  induction l with
  | nil => exact List.Perm.refl _
  | cons s l ih =>
    exact (insertSorted_perm s (sortStr l)).trans (List.Perm.cons s ih)

/-- The distinct categories present in the input, in the order `groupby`
produces its groups. -/
def summaryCategories (es : List EnrichedRow) : List String :=
  sortStr ((es.map fun e => e.category).dedup)

/-- The rows of one `groupby("category")` group. -/
def groupRows (es : List EnrichedRow) (c : String) : List EnrichedRow :=
  es.filter fun e => decide (e.category = c)

/-- One aggregated summary row: `total_transactions` counts non-null
`transaction_id` values (pandas `count`), the two sums skip nulls (pandas
`sum`/`mean`), and the 2dp rounds of lines 122-123 are applied to the final
sum and mean. -/
def aggRow (es : List EnrichedRow) (c : String) : SummaryRow :=
  let g := groupRows es c
  { category := c
    total_transactions := (g.filter fun e => e.transaction_id.isSome).length
    total_revenue := round2 ((g.filterMap fun e => e.total_amount).sum)
    avg_order_value :=
      round2 (((g.filterMap fun e => e.total_amount).sum) /
        ((g.filterMap fun e => e.total_amount).length : Rat))
    total_quantity := (g.map fun e => e.quantity).sum }

/-- `create_summary(df)` of `src/shared/etl_operations.py` lines 99-126:
one summary row per distinct category present in the input. -/
def create_summary (es : List EnrichedRow) : List SummaryRow :=
  (summaryCategories es).map (aggRow es)

theorem filterMap_amount_eq_map (l : List EnrichedRow)
    (h : ∀ e ∈ l, e.total_amount.isSome = true) :
    (l.filterMap fun e => e.total_amount) =
      l.map fun e => e.total_amount.getD 0 := by
  induction l with
  | nil => rfl
  | cons e l ih =>
    obtain ⟨a, ha⟩ := Option.isSome_iff_exists.mp (h e (List.mem_cons_self e l))
    rw [List.filterMap_cons, List.map_cons, ha]
    simp only [Option.getD_some]
    rw [ih fun x hx => h x (List.mem_cons_of_mem e hx)]

theorem mem_summaryCategories (es : List EnrichedRow) (c : String) :
    c ∈ summaryCategories es ↔ c ∈ es.map fun e => e.category := by
  unfold summaryCategories
  rw [(sortStr_perm ((es.map fun e => e.category).dedup)).mem_iff,
    List.mem_dedup]

/-- C5: on every enriched record set (no nulls in `transaction_id` or
`total_amount`, as the Transformer guarantees), the Aggregator emits exactly
one row per category present in the input — none for absent categories — and
each row carries the group's row count, its `total_amount` sum rounded after
summing, its rounded mean `total_amount`, and its `quantity` sum. -/
theorem summary_per_category (es : List EnrichedRow)
    (h : ∀ e ∈ es, e.transaction_id.isSome = true ∧ e.total_amount.isSome = true) :
    ((create_summary es).map fun s => s.category).Nodup ∧
    (∀ c, (∃ s ∈ create_summary es, s.category = c) ↔
      c ∈ es.map fun e => e.category) ∧
    ∀ s ∈ create_summary es,
      s.total_transactions = (groupRows es s.category).length ∧
      s.total_revenue =
        round2 (((groupRows es s.category).map fun e => e.total_amount.getD 0).sum) ∧
      s.avg_order_value =
        round2 ((((groupRows es s.category).map fun e => e.total_amount.getD 0).sum) /
          ((groupRows es s.category).length : Rat)) ∧
      s.total_quantity = ((groupRows es s.category).map fun e => e.quantity).sum := by
  have hgroup : ∀ c, ∀ e ∈ groupRows es c,
      e.transaction_id.isSome = true ∧ e.total_amount.isSome = true :=
    fun c e he => h e (List.mem_filter.mp he).1
  have hmapcat : (create_summary es).map (fun s => s.category) =
      summaryCategories es := by
    unfold create_summary
    rw [List.map_map]
    exact List.map_id _
  refine ⟨?_, ?_, ?_⟩
  · rw [hmapcat]
    exact (sortStr_perm _).symm.nodup (List.nodup_dedup _)
  · intro c
    constructor
    · rintro ⟨s, hs, hc⟩
      unfold create_summary at hs
      rw [List.mem_map] at hs
      obtain ⟨c', hc', hs⟩ := hs
      have : s.category = c' := by rw [← hs]; rfl
      rw [← hc, this]
      exact (mem_summaryCategories es c').mp hc'
    · intro hc
      exact ⟨aggRow es c, List.mem_map_of_mem _ ((mem_summaryCategories es c).mpr hc),
        rfl⟩
  · intro s hs
    unfold create_summary at hs
    rw [List.mem_map] at hs
    obtain ⟨c, hc, hs⟩ := hs
    subst hs
    have hcat : (aggRow es c).category = c := rfl
    rw [hcat]
    have hfm := filterMap_amount_eq_map (groupRows es c)
      fun e he => (hgroup c e he).2
    refine ⟨?_, ?_, ?_, rfl⟩
    · show ((groupRows es c).filter fun e => e.transaction_id.isSome).length = _
      rw [List.filter_eq_self.mpr fun e he => (hgroup c e he).1]
    · show round2 (((groupRows es c).filterMap fun e => e.total_amount).sum) = _
      rw [hfm]
    · show round2 ((((groupRows es c).filterMap fun e => e.total_amount).sum) /
          (((groupRows es c).filterMap fun e => e.total_amount).length : Rat)) = _
      rw [hfm, List.length_map]

/-- Three clean rows over two categories, e.g. for the Aggregator witness. -/
def sumRows : List Row :=
  [mkTestRow "S1" "Books" 20 1, mkTestRow "S2" "Electronics" 100 2,
    mkTestRow "S3" "Electronics" 300 1]

/-- The enriched form of `sumRows`. -/
def esW : List EnrichedRow := sumRows.map enrich

theorem esW_fields : ∀ e ∈ esW,
    e.transaction_id.isSome = true ∧ e.total_amount.isSome = true := by decide

/-- C5 witness: on the concrete two-category enriched set, the summary's
category column has no duplicates and the "Books" row carries the group
count, rounded revenue, rounded mean and quantity sum of its group. -/
theorem summary_per_category_witness :
    (((create_summary esW).map fun s => s.category).Nodup) ∧
    ((aggRow esW "Books").total_transactions = (groupRows esW "Books").length ∧
      (aggRow esW "Books").total_revenue =
        round2 (((groupRows esW "Books").map fun e => e.total_amount.getD 0).sum) ∧
      (aggRow esW "Books").avg_order_value =
        round2 ((((groupRows esW "Books").map fun e => e.total_amount.getD 0).sum) /
          ((groupRows esW "Books").length : Rat)) ∧
      (aggRow esW "Books").total_quantity =
        ((groupRows esW "Books").map fun e => e.quantity).sum) :=
  ⟨(summary_per_category esW esW_fields).1,
    (summary_per_category esW esW_fields).2.2 (aggRow esW "Books")
      (List.mem_map_of_mem _ (by decide))⟩

/-- The `if_exists` policy of `load_to_database` / `DataFrame.to_sql`. -/
inductive IfExists where
  | fail
  | replace
  | append
deriving DecidableEq

/-- The error `DataFrame.to_sql` raises under the `fail` policy: a
`ValueError` when the target table exists. -/
inductive LoadError where
  | valueError
deriving DecidableEq

/-- The relational store: a table name maps to its rows, `none` when no
table of that name exists (an existing table may well be empty). -/
def Database (α : Type) : Type := String → Option (List α)

/-- The store after writing `rows` as the full contents of table `name`. -/
def updateDb {α : Type} (db : Database α) (name : String) (rows : List α) :
    Database α :=
  fun t => if t = name then some rows else db t

/-- The write batches `chunksize = batch_size` splits `l` into, written with
explicit fuel so that it is structurally recursive. -/
def chunksGo {α : Type} (bs : Nat) : Nat → List α → List (List α)
  | _, [] => []
  | 0, l => [l]
  | f + 1, l => l.take bs :: chunksGo bs f (l.drop bs)

/-- The write batches of one `to_sql` call. -/
def chunks {α : Type} (bs : Nat) (l : List α) : List (List α) :=
  chunksGo bs l.length l

/-- `DataFrame.to_sql(table_name, engine, if_exists, chunksize)` (pandas
library semantics, the call `load_to_database` makes): under `fail` it
raises `ValueError` whenever the table exists — whether or not it holds
data; under `replace` it drops and recreates the table and inserts the
batches; under `append` it inserts the batches after the existing rows. -/
def to_sql {α : Type} (df : List α) (table_name : String)
    (if_exists : IfExists) (batch_size : Nat) (db : Database α) :
    Except LoadError (Database α) :=
  match db table_name, if_exists with
  | some _, .fail => .error .valueError
  | existing, pol =>
    let base : List α :=
      match existing, pol with
      | some old, .append => old
      | _, _ => []
    let final := (chunks batch_size df).foldl (fun acc b => acc ++ b) base
    .ok (updateDb db table_name final)

/-- `load_to_database(df, table_name, database_url, if_exists, batch_size)`
of `src/shared/etl_operations.py` lines 129-160: a single `to_sql` call with
the given policy and chunk size (`database_url`/engine state is the
`Database` value). -/
def load_to_database {α : Type} (df : List α) (table_name : String)
    (db : Database α) (if_exists : IfExists) (batch_size : Nat) :
    Except LoadError (Database α) :=
  to_sql df table_name if_exists batch_size db

theorem foldl_append_eq_join {α : Type} (l : List (List α)) (base : List α) :
    l.foldl (fun acc b => acc ++ b) base = base ++ l.flatten := by
  induction l generalizing base with
  | nil => simp
  | cons x l ih => simp [List.foldl_cons, ih, List.append_assoc]

theorem chunksGo_join {α : Type} (bs : Nat) (hbs : 1 ≤ bs) :
    ∀ (fuel : Nat) (l : List α), l.length ≤ fuel → (chunksGo bs fuel l).flatten = l := by
  intro fuel
  induction fuel with
  | zero =>
    intro l hl
    match l with
    | [] => rfl
    | a :: t => simp at hl
  | succ f ih =>
    intro l hl
    match l with
    | [] => rfl
    | a :: t =>
      have hlen : ((a :: t).drop bs).length ≤ f := by
        rw [List.length_drop, List.length_cons]
        rw [List.length_cons] at hl
        omega
      show ((a :: t).take bs :: chunksGo bs f ((a :: t).drop bs)).flatten = a :: t
      rw [List.flatten_cons, ih ((a :: t).drop bs) hlen, List.take_append_drop]

/-- On success, the `replace` policy leaves exactly the new record set in the
target table (the batched insert of all chunks). -/
theorem to_sql_replace_final {α : Type} (df : List α) (tn : String)
    (bs : Nat) (hbs : 1 ≤ bs) (db : Database α) :
    to_sql df tn .replace bs db = .ok (updateDb db tn df) := by
  unfold to_sql
  have hjoin : (chunks bs df).foldl (fun acc b => acc ++ b) ([] : List α) = df := by
    rw [foldl_append_eq_join, List.nil_append]
    exact chunksGo_join bs hbs df.length df le_rfl
  cases hdb : db tn with
  | none =>
    show Except.ok (updateDb db tn
      ((chunks bs df).foldl (fun acc b => acc ++ b) [])) = _
    rw [hjoin]
  | some old =>
    show Except.ok (updateDb db tn
      ((chunks bs df).foldl (fun acc b => acc ++ b) [])) = _
    rw [hjoin]

/-- C8 counterexample: a store whose `transactions` table exists but holds
no rows.  The claim says this load succeeds; it raises `ValueError`. -/
def dbEmptyTable : Database Nat :=
  fun t => if t = "transactions" then some [] else none

/-- The table exists and holds at least one row. -/
def tableHoldsData {α : Type} (db : Database α) (t : String) : Prop :=
  ∃ rows, db t = some rows ∧ rows ≠ []

/-- C8 counterexample: under the fail-if-exists policy, loading into an
existing but empty table raises `ValueError`, although the table holds no
data — the claimed equivalence "fails iff the table holds data" is false
here, as is the claimed success on an existing empty table. -/
theorem load_fail_counterexample :
    (∃ e, load_to_database [1] "transactions" dbEmptyTable .fail 10000 =
      .error e) ∧
    ¬ tableHoldsData dbEmptyTable "transactions" := by
  constructor
  · exact ⟨.valueError, rfl⟩
  · rintro ⟨rows, hr, hne⟩
    simp [dbEmptyTable] at hr
    exact hne hr

/-- C8 (amended): under the fail-if-exists policy the Loader fails with
`ValueError` exactly when the target table already exists — regardless of
whether it holds any data. -/
theorem load_fail_iff_table_exists {α : Type} (df : List α) (tn : String)
    (db : Database α) (bs : Nat) :
    (∃ e, load_to_database df tn db .fail bs = .error e) ↔
      (db tn).isSome = true := by
  unfold load_to_database to_sql
  cases hdb : db tn with
  | none =>
    refine iff_of_false ?_ (by simp)
    rintro ⟨e, he⟩
    exact Except.noConfusion he
  | some old => exact iff_of_true ⟨.valueError, rfl⟩ rfl

/-- The table states a `replace` load can be observed in if a write batch
fails mid-load: the initial contents, the empty table right after the
drop/recreate, and the table after each batch of the new record set
committed so far (pandas drops and recreates the table before the first
insert, so the old rows are gone before any new row arrives). -/
def loadReplaceTrace {α : Type} (old new : List α) (bs : Nat) :
    List (List α) :=
  old :: [] ::
    (List.range (chunks bs new).length).map
      (fun k => ((chunks bs new).take (k + 1)).flatten)

theorem chunksGo_take_join_isPre {α : Type} (bs : Nat) :
    ∀ (fuel : Nat) (l : List α) (k : Nat),
      ((chunksGo bs fuel l).take k).flatten <+: l := by
  intro fuel
  induction fuel with
  | zero =>
    intro l k
    match l with
    | [] =>
      match k with
      | 0 => exact ⟨[], rfl⟩
      | _ + 1 => exact ⟨[], rfl⟩
    | a :: t =>
      match k with
      | 0 => exact ⟨a :: t, rfl⟩
      | k + 1 =>
        show ([a :: t].take (k + 1)).flatten <+: a :: t
        rw [List.take_succ_cons, List.take_nil, List.flatten_cons,
          List.flatten_nil, List.append_nil]
  | succ f ih =>
    intro l k
    match l with
    | [] =>
      match k with
      | 0 => exact ⟨[], rfl⟩
      | _ + 1 => exact ⟨[], rfl⟩
    | a :: t =>
      match k with
      | 0 => exact ⟨a :: t, rfl⟩
      | k + 1 =>
        show (((a :: t).take bs :: chunksGo bs f ((a :: t).drop bs)).take
          (k + 1)).flatten <+: a :: t
        rw [List.take_succ_cons, List.flatten_cons]
        obtain ⟨tail, htail⟩ := ih ((a :: t).drop bs) k
        refine ⟨tail, ?_⟩
        rw [List.append_assoc, htail, List.take_append_drop]

/-- C9: any state a failed batched `replace` load leaves behind is either
the untouched old contents (failure before the drop commits) or an initial
prefix of the new record set — never a mixture of old rows and new rows. -/
theorem load_replace_never_mixes {α : Type} (old new : List α) (bs : Nat)
    (s : List α) (hs : s ∈ loadReplaceTrace old new bs) :
    s = old ∨ s <+: new := by
  unfold loadReplaceTrace at hs
  rcases List.mem_cons.mp hs with h | hs
  · exact Or.inl h
  rcases List.mem_cons.mp hs with h | hs
  · subst h
    exact Or.inr ⟨new, rfl⟩
  rw [List.mem_map] at hs
  obtain ⟨k, hk, hsk⟩ := hs
  subst hsk
  exact Or.inr (chunksGo_take_join_isPre bs new.length new (k + 1))

/-- C9 witness: a batch failure after the first batch of `[1, 2, 3]` (batch
size 2) over old contents `[99]` leaves `[1, 2]`, a prefix of the new data
containing no old row. -/
theorem load_replace_never_mixes_witness :
    ([1, 2] : List Nat) = [99] ∨ ([1, 2] : List Nat) <+: [1, 2, 3] :=
  load_replace_never_mixes [99] [1, 2, 3] 2 [1, 2] (by decide)

end EtlModel
